import Mathlib

/-!
Verification of the speech-delivery subsystem of tera-guide-core.

This file gives a shallow embedding, in Lean, of the voice/TTS code of the
repository and proves (or refutes) the frozen specification claims about it.

The embedded code:
* `lib/utils/textUtils.js` and `lib/onlineTTS.js` — number-to-English
  conversion (`convertNumber`, `generateOrdinal`), the regex replacement
  pipeline of `_convertNumbersToEnglish`, the cache filename sanitizer
  `_textToFileName`, cache path resolution, `_getVoiceId`,
  `_fetchAudioFromAPI`, `generateAudio`, `setVoice`, `deleteVoice`.
* the persistent audio player (`AudioPlayer` with the resident `cscript`
  worker process) — modelled as a state machine over the events that drive
  `queueAndPlay`/`_playQueue`, the `DONE` completion line and the idle
  timer.

JavaScript strings are modelled as `List Char` / `String`; byte buffers as
`List Nat`; the filesystem as an association list from paths to contents;
`path.join` is modelled with the separator `"/"`.  A JavaScript map object
is an association list with distinct keys; a missing property, which is
`undefined` (falsy) in JavaScript, is represented by the empty string
whenever the code only ever checks the value for truthiness.
-/

namespace TGC

/-! ## Character helpers (ASCII classes used by the JavaScript regexes) -/

/-- ASCII digit, the regex class `\d`. -/
def isAsciiDigit (c : Char) : Bool := '0' ≤ c && c ≤ '9'

/-- ASCII letter, the regex class `[a-zA-Z]`. -/
def isAsciiLetter (c : Char) : Bool := ('a' ≤ c && c ≤ 'z') || ('A' ≤ c && c ≤ 'Z')

/-- Whitespace, the regex class `\s` (restricted to its ASCII members). -/
def isJsSpace (c : Char) : Bool :=
  c = ' ' || c = '\t' || c = '\n' || c = '\r' || c = '\x0b' || c = '\x0c'

/-- Word character, the class `\w` used by the word-boundary assertion `\b`. -/
def isWordChar (c : Char) : Bool := isAsciiLetter c || isAsciiDigit c || c = '_'

/-- Lower-case an ASCII letter (for the case-insensitive `i` regex flag). -/
def lowerChar (c : Char) : Char :=
  if 'A' ≤ c && c ≤ 'Z' then Char.ofNat (c.toNat + 32) else c

/-- `parseInt` on a run of ASCII digits. -/
def digitsToNat (ds : List Char) : Nat :=
  ds.foldl (fun acc c => acc * 10 + (c.toNat - 48)) 0

/-- Whether `pat` is an initial segment of `l`. -/
def listStartsWith : List Char → List Char → Bool
  | _, [] => true
  | [], _ :: _ => false
  | c :: cs, p :: ps => c = p && listStartsWith cs ps

/-! ## Number-to-word conversion

Embeds `convertNumber` / `generateOrdinal` of `lib/utils/textUtils.js`
(the identical copy inside `lib/onlineTTS.js` lines 136–219).  The
JavaScript tables `numberWords` / `ordinalWords` are partial objects: an
access outside the table yields `undefined`, which prints as the string
`"undefined"` inside a template literal, so the total versions below
default to `"undefined"`. -/

/-- The `numberWords` table; `"undefined"` outside its domain. -/
def numberWord (n : Nat) : String :=
  match n with
  | 0 => "zero" | 1 => "one" | 2 => "two" | 3 => "three" | 4 => "four"
  | 5 => "five" | 6 => "six" | 7 => "seven" | 8 => "eight" | 9 => "nine"
  | 10 => "ten" | 11 => "eleven" | 12 => "twelve" | 13 => "thirteen" | 14 => "fourteen"
  | 15 => "fifteen" | 16 => "sixteen" | 17 => "seventeen" | 18 => "eighteen" | 19 => "nineteen"
  | 20 => "twenty" | 30 => "thirty" | 40 => "forty" | 50 => "fifty"
  | 60 => "sixty" | 70 => "seventy" | 80 => "eighty" | 90 => "ninety"
  | _ => "undefined"

/-- The `ordinalWords` table, as the partial object it is in the source. -/
def ordinalWordTable (n : Nat) : Option String :=
  match n with
  | 1 => some "first" | 2 => some "second" | 3 => some "third" | 4 => some "fourth"
  | 5 => some "fifth" | 6 => some "sixth" | 7 => some "seventh" | 8 => some "eighth"
  | 9 => some "ninth" | 10 => some "tenth" | 11 => some "eleventh" | 12 => some "twelfth"
  | 13 => some "thirteenth" | 14 => some "fourteenth" | 15 => some "fifteenth"
  | 16 => some "sixteenth" | 17 => some "seventeenth" | 18 => some "eighteenth"
  | 19 => some "nineteenth" | 20 => some "twentieth" | 30 => some "thirtieth"
  | 40 => some "fortieth" | 50 => some "fiftieth" | 60 => some "sixtieth"
  | 70 => some "seventieth" | 80 => some "eightieth" | 90 => some "ninetieth"
  | 100 => some "hundredth"
  | _ => none

/-- The inner helper `under100` of `convertNumber`. -/
def under100 (n : Nat) : String :=
  if n ≤ 20 then numberWord n
  else
    let tens := n / 10 * 10
    let ones := n % 10
    if ones = 0 then numberWord tens else numberWord tens ++ " " ++ numberWord ones

/-- `convertNumber` of `lib/utils/textUtils.js` lines 34–68: cardinal
conversion for 0–9999, digit string (`num.toString()`) for negative values
and those at or above 10000. -/
def convertNumber (num : Int) : String :=
  if num = 0 then "zero"
  else if num < 0 ∨ 10000 ≤ num then toString num
  else
    let n := num.toNat
    if n < 100 then under100 n
    else if n < 1000 then
      let hundreds := n / 100
      let r := n % 100
      if r = 0 then numberWord hundreds ++ " hundred"
      else numberWord hundreds ++ " hundred " ++ under100 r
    else
      let thousands := n / 1000
      let r := n % 1000
      if r = 0 then numberWord thousands ++ " thousand"
      else
        let hundreds := r / 100
        let tens := r % 100
        if hundreds = 0 then numberWord thousands ++ " thousand " ++ under100 tens
        else if tens = 0 then numberWord thousands ++ " thousand " ++ numberWord hundreds ++ " hundred"
        else numberWord thousands ++ " thousand " ++ numberWord hundreds ++ " hundred " ++ under100 tens

/-- `generateOrdinal` of `lib/utils/textUtils.js` lines 71–98 (the fuel
argument makes the recursion structural; the only recursive call passes
`num % 1000 < 1000`, which never recurses again, so fuel 1 is exact). -/
def generateOrdinalGo : Nat → Nat → String
  | fuel, num =>
    match ordinalWordTable num with
    | some w => w
    | none =>
      if num < 100 then
        let tens := num / 10 * 10
        let ones := num % 10
        if ones = 0 then numberWord tens ++ "th"
        else numberWord tens ++ " " ++ (ordinalWordTable ones).getD "undefined"
      else if num < 1000 then
        let hundreds := num / 100
        let r := num % 100
        if r = 0 then numberWord hundreds ++ " hundredth"
        else
          match ordinalWordTable r with
          | some w => numberWord hundreds ++ " hundred " ++ w
          | none =>
            let tens := r / 10 * 10
            let ones := r % 10
            if ones = 0 then numberWord hundreds ++ " hundred " ++ numberWord tens ++ "th"
            else numberWord hundreds ++ " hundred " ++ numberWord tens ++ " " ++
              (ordinalWordTable ones).getD "undefined"
      else
        let thousands := num / 1000
        let r := num % 1000
        if r = 0 then numberWord thousands ++ " thousandth"
        else
          match fuel with
          | 0 => ""
          | fuel + 1 => numberWord thousands ++ " thousand " ++ generateOrdinalGo fuel r

def generateOrdinal (num : Nat) : String := generateOrdinalGo 1 num

/-! ## Specification-side cardinal English

An independent rendering of "the exact English word sequence, composed from
ones/tens tables with hundred and thousand" as the specification words it.
Deliberately structured differently from `convertNumber` (direct table
lookups, recursion on the under-1000 part) so that agreement on 0–9999 is a
genuine comparison and not a restatement. -/

/-- Words zero–nineteen, the spec's ones table. -/
def specOnes : List String :=
  ["zero", "one", "two", "three", "four", "five", "six", "seven", "eight", "nine",
   "ten", "eleven", "twelve", "thirteen", "fourteen", "fifteen", "sixteen",
   "seventeen", "eighteen", "nineteen"]

/-- The spec's tens table (index k holds the word for 10·k). -/
def specTens : List String :=
  ["zero", "ten", "twenty", "thirty", "forty", "fifty", "sixty", "seventy", "eighty", "ninety"]

/-- English words for n < 100, composed from the two tables. -/
def specUnderHundred (n : Nat) : String :=
  if n < 20 then specOnes.getD n ""
  else if n % 10 = 0 then specTens.getD (n / 10) ""
  else specTens.getD (n / 10) "" ++ " " ++ specOnes.getD (n % 10) ""

/-- English words for n < 1000, with "hundred". -/
def specUnderThousand (n : Nat) : String :=
  if n < 100 then specUnderHundred n
  else if n % 100 = 0 then specOnes.getD (n / 100) "" ++ " hundred"
  else specOnes.getD (n / 100) "" ++ " hundred" ++ " " ++ specUnderHundred (n % 100)

/-- English words for n < 10000, with "thousand". -/
def specCardinalEnglish (n : Nat) : String :=
  if n < 1000 then specUnderThousand n
  else if n % 1000 = 0 then specOnes.getD (n / 1000) "" ++ " thousand"
  else specOnes.getD (n / 1000) "" ++ " thousand" ++ " " ++ specUnderThousand (n % 1000)

/-! ### convertNumber agrees with the spec rendering on 0-9999 -/

/-- The positive in-range branch of `convertNumber`, as a function of the
underlying natural number (a proof device for the range lemmas below). -/
def convertNumberPos (n : Nat) : String :=
  if n < 100 then under100 n
  else if n < 1000 then
    (if n % 100 = 0 then numberWord (n / 100) ++ " hundred"
     else numberWord (n / 100) ++ " hundred " ++ under100 (n % 100))
  else
    (if n % 1000 = 0 then numberWord (n / 1000) ++ " thousand"
     else if n % 1000 / 100 = 0 then
       numberWord (n / 1000) ++ " thousand " ++ under100 (n % 1000 % 100)
     else if n % 1000 % 100 = 0 then
       numberWord (n / 1000) ++ " thousand " ++ numberWord (n % 1000 / 100) ++ " hundred"
     else
       numberWord (n / 1000) ++ " thousand " ++ numberWord (n % 1000 / 100) ++ " hundred " ++
         under100 (n % 1000 % 100))

lemma convertNumber_pos (n : Nat) (h0 : n ≠ 0) (h : n < 10000) :
    convertNumber (n : Int) = convertNumberPos n := by
  rw [convertNumber,
    if_neg (show ¬((n : Int) = 0) by exact_mod_cast h0),
    if_neg (show ¬((n : Int) < 0 ∨ 10000 ≤ (n : Int)) by push_neg; omega)]
  rfl

lemma under100_eq_spec : ∀ n : Nat, n < 100 → under100 n = specUnderHundred n := by decide

lemma convertNumber_small : ∀ n : Nat, n < 100 →
    convertNumber (n : Int) = specUnderHundred n := by decide

lemma numberWord_eq_specOnes : ∀ n : Nat, n < 20 → numberWord n = specOnes.getD n "" := by
  decide

lemma data_hundred_sp : (" hundred " : String).data =
    (" hundred" : String).data ++ (" " : String).data := by decide

lemma data_thousand_sp : (" thousand " : String).data =
    (" thousand" : String).data ++ (" " : String).data := by decide

lemma convertNumber_hundreds (n : Nat) (h1 : 100 ≤ n) (h2 : n < 1000) :
    convertNumber (n : Int) = specUnderThousand n := by
  rw [convertNumber_pos n (by omega) (by omega), convertNumberPos, specUnderThousand,
    if_neg (show ¬ n < 100 by omega), if_neg (show ¬ n < 100 by omega), if_pos h2]
  by_cases hr : n % 100 = 0
  · rw [if_pos hr, if_pos hr, numberWord_eq_specOnes (n / 100) (by omega)]
  · rw [if_neg hr, if_neg hr, numberWord_eq_specOnes (n / 100) (by omega),
      under100_eq_spec (n % 100) (Nat.mod_lt _ (by norm_num))]
    apply String.ext
    simp [String.data_append, data_hundred_sp]

lemma convertNumber_thousands (n : Nat) (h1 : 1000 ≤ n) (h2 : n < 10000) :
    convertNumber (n : Int) = specCardinalEnglish n := by
  rw [convertNumber_pos n (by omega) h2, convertNumberPos, specCardinalEnglish,
    if_neg (show ¬ n < 100 by omega), if_neg (show ¬ n < 1000 by omega),
    if_neg (show ¬ n < 1000 by omega)]
  by_cases hr : n % 1000 = 0
  · rw [if_pos hr, if_pos hr, numberWord_eq_specOnes (n / 1000) (by omega)]
  · rw [if_neg hr, if_neg hr, numberWord_eq_specOnes (n / 1000) (by omega)]
    have hrlt : n % 1000 < 1000 := Nat.mod_lt _ (by norm_num)
    by_cases hh : n % 1000 / 100 = 0
    · -- the part below one thousand is below one hundred
      have hlt100 : n % 1000 < 100 := by omega
      rw [if_pos hh, specUnderThousand, if_pos hlt100]
      have htens : n % 1000 % 100 = n % 1000 := Nat.mod_eq_of_lt hlt100
      rw [htens, under100_eq_spec (n % 1000) hlt100]
      apply String.ext
      simp [String.data_append, data_thousand_sp]
    · rw [if_neg hh, specUnderThousand, if_neg (show ¬ n % 1000 < 100 by omega)]
      by_cases ht : n % 1000 % 100 = 0
      · rw [if_pos ht, if_pos ht, numberWord_eq_specOnes (n % 1000 / 100) (by omega)]
        apply String.ext
        simp [String.data_append, data_thousand_sp]
      · rw [if_neg ht, if_neg ht, numberWord_eq_specOnes (n % 1000 / 100) (by omega),
          under100_eq_spec (n % 1000 % 100) (Nat.mod_lt _ (by norm_num))]
        apply String.ext
        simp [String.data_append, data_thousand_sp, data_hundred_sp]

lemma convertNumber_nat (n : Nat) (h : n < 10000) :
    convertNumber (n : Int) = specCardinalEnglish n := by
  rcases Nat.lt_or_ge n 100 with h100 | h100
  · rw [convertNumber_small n h100, specCardinalEnglish, if_pos (show n < 1000 by omega),
      specUnderThousand, if_pos h100]
  rcases Nat.lt_or_ge n 1000 with h1000 | h1000
  · rw [convertNumber_hundreds n h100 h1000, specCardinalEnglish, if_pos h1000]
  · exact convertNumber_thousands n h1000 h

/-- Claim C3: the cardinal conversion used by text normalization maps every
integer 0-9999 to its exact English word sequence (composed from ones/tens
tables with "hundred" and "thousand"), and leaves every integer at or above
10000 and every negative value as its digit string rather than converting it
or raising an error. -/
theorem convertNumber_exact_range (i : Int) :
    convertNumber i =
      if 0 ≤ i ∧ i < 10000 then specCardinalEnglish i.toNat else toString i := by
  by_cases h : 0 ≤ i ∧ i < 10000
  · rw [if_pos h]
    obtain ⟨h0, h1⟩ := h
    lift i to Nat using h0 with n
    rw [Int.toNat_natCast]
    exact convertNumber_nat n (by exact_mod_cast h1)
  · rw [if_neg h]
    rw [convertNumber]
    have hout : i < 0 ∨ 10000 ≤ i := by omega
    rw [if_neg (show ¬ i = 0 by omega), if_pos hout]

/-! ## The regex replacement pipeline of `_convertNumbersToEnglish`

`lib/onlineTTS.js` lines 125-249.  Each JavaScript `text.replace(re, fn)`
with a global regex is modelled by a left-to-right scanner: at every
position the pattern-specific matcher either yields a replacement together
with the number of characters consumed, or the scanner copies one character
and moves on.  This reproduces the regex engine's behaviour for the
patterns at hand (all of them consume at least one character, and a failed
match at one position never precludes retrying at the next).  The
word-boundary assertion `\b` at the start of a pattern is checked through
the `prevW` flag (whether the previous character was a word character). -/

lemma length_takeWhile_le (p : Char → Bool) :
    ∀ l : List Char, (l.takeWhile p).length ≤ l.length := by
  intro l
  induction l with
  | nil => simp
  | cons c cs ih =>
    by_cases h : p c
    · simp only [List.takeWhile_cons, h, List.length_cons, if_pos]
      omega
    · simp [List.takeWhile_cons, h]

/-- The ordinal suffixes `nd|rd|th|st`, case-sensitive, at the head. -/
def csOrdSuffix (l : List Char) : Bool :=
  match l with
  | a :: b :: _ =>
    (a = 'n' && b = 'd') || (a = 'r' && b = 'd') || (a = 't' && b = 'h') || (a = 's' && b = 't')
  | _ => false

/-- The ordinal suffixes, case-insensitive (`i` flag), at the head. -/
def ciOrdSuffix (l : List Char) : Bool :=
  match l with
  | a :: b :: _ => csOrdSuffix [lowerChar a, lowerChar b]
  | _ => false

/-- The closing word-boundary `\b`: end of input or a non-word character. -/
def boundaryAfter (l : List Char) : Bool :=
  match l with
  | [] => true
  | c :: _ => !isWordChar c

/-- One global-replace pass: `m prevW l` reports a replacement for a match
starting at the head of `l` (with its consumed length), or `none`.  Each
step consumes at least one character, so fuel `l.length` is enough. -/
def globalReplaceGo (m : Bool → List Char → Option (List Char × Nat)) :
    Nat → Bool → List Char → List Char
  | 0, _, l => l
  | _ + 1, _, [] => []
  | fuel + 1, prevW, c :: rest =>
    match m prevW (c :: rest) with
    | some (rep, L) =>
      rep ++ globalReplaceGo m fuel (isWordChar (((c :: rest).take (max L 1)).getLastD ' '))
        ((c :: rest).drop (max L 1))
    | none => c :: globalReplaceGo m fuel (isWordChar c) rest

def globalReplace (m : Bool → List Char → Option (List Char × Nat))
    (prevW : Bool) (l : List Char) : List Char :=
  globalReplaceGo m l.length prevW l

/-- Run a matcher over a whole string (initially no preceding word char). -/
def applyMatcher (m : Bool → List Char → Option (List Char × Nat)) (l : List Char) : List Char :=
  globalReplace m false l

/-- The first-occurrence replace `match.replace(/\d+(nd|rd|th|st)/, w)` used
inside the "Waves" rule; `outer` is the number captured by the outer regex.
Fueled as in `globalReplaceGo`. -/
def innerOrdinalReplaceGo (outer : Nat) : Nat → List Char → List Char
  | 0, l => l
  | _ + 1, [] => []
  | fuel + 1, c :: rest =>
    if isAsciiDigit c then
      let ds := rest.takeWhile isAsciiDigit
      let after := rest.drop ds.length
      if csOrdSuffix after then (generateOrdinal outer).data ++ after.drop 2
      else (c :: ds) ++ innerOrdinalReplaceGo outer fuel after
    else c :: innerOrdinalReplaceGo outer fuel rest

def innerOrdinalReplace (outer : Nat) (l : List Char) : List Char :=
  innerOrdinalReplaceGo outer l.length l

/-- Rule 1: `/Waves\s*\([^)]+\)\s*(\d+)(nd|rd|th|st)\s+fast/gi`, replaced by
the match with its first (case-sensitive) `\d+(nd|rd|th|st)` substring
rewritten to the ordinal word of the captured number. -/
def wavesMatcher (_ : Bool) (l : List Char) : Option (List Char × Nat) :=
  if (l.take 5).map lowerChar = ['w', 'a', 'v', 'e', 's'] then
    let r1 := l.drop 5
    let ws1 := r1.takeWhile isJsSpace
    match r1.drop ws1.length with
    | '(' :: r3 =>
      let content := r3.takeWhile (fun c => c ≠ ')')
      if content.isEmpty then none
      else
        match r3.drop content.length with
        | ')' :: r4 =>
          let ws2 := r4.takeWhile isJsSpace
          let r5 := r4.drop ws2.length
          let ds := r5.takeWhile isAsciiDigit
          if ds.isEmpty then none
          else
            let r6 := r5.drop ds.length
            if ciOrdSuffix r6 then
              let r7 := r6.drop 2
              let ws3 := r7.takeWhile isJsSpace
              if ws3.isEmpty then none
              else
                let r8 := r7.drop ws3.length
                if (r8.take 4).map lowerChar = ['f', 'a', 's', 't'] then
                  let L := 5 + ws1.length + 1 + content.length + 1 + ws2.length +
                    ds.length + 2 + ws3.length + 4
                  some (innerOrdinalReplace (digitsToNat ds) (l.take L), L)
                else none
            else none
        | _ => none
    | _ => none
  else none

/-- Rule 2: `/\b(\d+)(nd|rd|th|st)\b/gi` to the ordinal word. -/
def ordinalTokenMatcher (prevW : Bool) (l : List Char) : Option (List Char × Nat) :=
  if prevW then none
  else
    let ds := l.takeWhile isAsciiDigit
    if ds.isEmpty then none
    else
      let rest := l.drop ds.length
      if ciOrdSuffix rest && boundaryAfter (rest.drop 2) then
        some ((generateOrdinal (digitsToNat ds)).data, ds.length + 2)
      else none

/-- Rule 3: `/\bx(\d+)\b/gi` to `times <number-word>`. -/
def xNumMatcher (prevW : Bool) (l : List Char) : Option (List Char × Nat) :=
  if prevW then none
  else
    match l with
    | c :: rest =>
      if lowerChar c = 'x' then
        let ds := rest.takeWhile isAsciiDigit
        if ds.isEmpty then none
        else if boundaryAfter (rest.drop ds.length) then
          some (("times " ++ convertNumber (digitsToNat ds)).data, 1 + ds.length)
        else none
      else none
    | [] => none

/-- Rule 4: `/(\d+)%/g` to `<number-word> percent`. -/
def percentMatcher (_ : Bool) (l : List Char) : Option (List Char × Nat) :=
  let ds := l.takeWhile isAsciiDigit
  if ds.isEmpty then none
  else
    match l.drop ds.length with
    | '%' :: _ => some ((convertNumber (digitsToNat ds) ++ " percent").data, ds.length + 1)
    | _ => none

/-- Rule 5: `/\b(\d+)\s*-\s*(\d+)\s*-\s*(\d+)\b/g` to `.. dash .. dash ..`. -/
def dashMatcher (prevW : Bool) (l : List Char) : Option (List Char × Nat) :=
  if prevW then none
  else
    let d1 := l.takeWhile isAsciiDigit
    if d1.isEmpty then none
    else
      let r1 := l.drop d1.length
      let s1 := r1.takeWhile isJsSpace
      match r1.drop s1.length with
      | '-' :: r2 =>
        let s2 := r2.takeWhile isJsSpace
        let r2b := r2.drop s2.length
        let d2 := r2b.takeWhile isAsciiDigit
        if d2.isEmpty then none
        else
          let r3 := r2b.drop d2.length
          let s3 := r3.takeWhile isJsSpace
          match r3.drop s3.length with
          | '-' :: r4 =>
            let s4 := r4.takeWhile isJsSpace
            let r4b := r4.drop s4.length
            let d3 := r4b.takeWhile isAsciiDigit
            if d3.isEmpty then none
            else if boundaryAfter (r4b.drop d3.length) then
              some ((convertNumber (digitsToNat d1) ++ " dash " ++
                     convertNumber (digitsToNat d2) ++ " dash " ++
                     convertNumber (digitsToNat d3)).data,
                d1.length + s1.length + 1 + s2.length + d2.length + s3.length + 1 +
                  s4.length + d3.length)
            else none
          | _ => none
      | _ => none

/-- Rule 6: `/\b(\d+)x(\d+)\b/g` (case-sensitive `x`). -/
def numXnumMatcher (prevW : Bool) (l : List Char) : Option (List Char × Nat) :=
  if prevW then none
  else
    let d1 := l.takeWhile isAsciiDigit
    if d1.isEmpty then none
    else
      match l.drop d1.length with
      | 'x' :: r =>
        let d2 := r.takeWhile isAsciiDigit
        if d2.isEmpty then none
        else if boundaryAfter (r.drop d2.length) then
          some ((convertNumber (digitsToNat d1) ++ " times " ++
                 convertNumber (digitsToNat d2)).data, d1.length + 1 + d2.length)
        else none
      | _ => none

/-- A character allowed inside a word token of rules 7 and 8, the regex
class `[^\s,;:.!?]`. -/
def isWordTokenChar (c : Char) : Bool :=
  !(isJsSpace c || c = ',' || c = ';' || c = ':' || c = '.' || c = '!' || c = '?')

/-- Greedy `(?:\s+[^\s,;:.!?]+)*`: total length of further space-separated
word tokens (fueled; every step consumes at least one character). -/
def xWordsTailGo : Nat → List Char → Nat
  | 0, _ => 0
  | fuel + 1, l =>
    let s := l.takeWhile isJsSpace
    if s.length = 0 then 0
    else
      let w := (l.drop s.length).takeWhile isWordTokenChar
      if w.length = 0 then 0
      else s.length + w.length + xWordsTailGo fuel (l.drop (s.length + w.length))

def xWordsTail (l : List Char) : Nat := xWordsTailGo l.length l

/-- First index at which `pat` occurs in `l` (JavaScript `indexOf`). -/
def indexOfSeq : List Char → List Char → Option Nat
  | [], pat => if pat.isEmpty then some 0 else none
  | c :: rest, pat =>
    if listStartsWith (c :: rest) pat then some 0
    else (indexOfSeq rest pat).map (· + 1)

/-- `match.substring(match.indexOf('x ') + 2)` of rule 7 (`indexOf`
yields -1, hence `substring(1)`, when `"x "` does not occur). -/
def afterXspace (matched : List Char) : List Char :=
  match indexOfSeq matched ['x', ' '] with
  | some i => matched.drop (i + 2)
  | none => matched.drop 1

/-- Rule 7: `/\b(\d+)x\s+([^\s,;:.!?]+(?:\s+[^\s,;:.!?]+)*)/g` to
`<number-word> times <text after the first "x ">`. -/
def numXwordsMatcher (prevW : Bool) (l : List Char) : Option (List Char × Nat) :=
  if prevW then none
  else
    let d := l.takeWhile isAsciiDigit
    if d.isEmpty then none
    else
      match l.drop d.length with
      | 'x' :: r =>
        let s := r.takeWhile isJsSpace
        if s.isEmpty then none
        else
          let w := (r.drop s.length).takeWhile isWordTokenChar
          if w.isEmpty then none
          else
            let L := d.length + 1 + s.length + w.length +
              xWordsTail (r.drop (s.length + w.length))
            some ((convertNumber (digitsToNat d)).data ++
              (" times " : String).data ++ afterXspace (l.take L), L)
      | _ => none

/-- Rule 8: `/\b(\d+)x([A-Za-z][^\s,;:.!?]*)/g` to `<number-word> times <word>`. -/
def numXalphaMatcher (prevW : Bool) (l : List Char) : Option (List Char × Nat) :=
  if prevW then none
  else
    let d := l.takeWhile isAsciiDigit
    if d.isEmpty then none
    else
      match l.drop d.length with
      | 'x' :: c :: r =>
        if isAsciiLetter c then
          let w := r.takeWhile isWordTokenChar
          some ((convertNumber (digitsToNat d)).data ++ (" times " : String).data ++
            (c :: w), d.length + 2 + w.length)
        else none
      | _ => none

/-- Rule 9: `/\b\d+\b/g` to the cardinal word. -/
def bareNumMatcher (prevW : Bool) (l : List Char) : Option (List Char × Nat) :=
  if prevW then none
  else
    let ds := l.takeWhile isAsciiDigit
    if ds.isEmpty then none
    else if boundaryAfter (l.drop ds.length) then
      some ((convertNumber (digitsToNat ds)).data, ds.length)
    else none

/-- `processNumberFormats`: the nine global replaces, applied in order
(`replacements.reduce` of `lib/onlineTTS.js` lines 222-242). -/
def processNumberFormats (l : List Char) : List Char :=
  applyMatcher bareNumMatcher
    (applyMatcher numXalphaMatcher
      (applyMatcher numXwordsMatcher
        (applyMatcher numXnumMatcher
          (applyMatcher dashMatcher
            (applyMatcher percentMatcher
              (applyMatcher xNumMatcher
                (applyMatcher ordinalTokenMatcher
                  (applyMatcher wavesMatcher l))))))))

/-- `text.replace(/\+/g, ' plus ')`. -/
def replacePlus : List Char → List Char
  | [] => []
  | '+' :: r => ' ' :: 'p' :: 'l' :: 'u' :: 's' :: ' ' :: replacePlus r
  | c :: r => c :: replacePlus r

/-- `/\bAoE\b/g` (case-sensitive) to `AOE`. -/
def aoeMatcher (prevW : Bool) (l : List Char) : Option (List Char × Nat) :=
  if prevW then none
  else if listStartsWith l ['A', 'o', 'E'] && boundaryAfter (l.drop 3) then
    some (['A', 'O', 'E'], 3)
  else none

/-- `text.replace(/\(([^)]+)\)/g, ..)`: parenthesized segments are processed
independently first (`process` is applied to the content in place). -/
def parensMatcher (process : List Char → List Char) (_ : Bool) (l : List Char) :
    Option (List Char × Nat) :=
  match l with
  | '(' :: r =>
    let content := r.takeWhile (fun c => c ≠ ')')
    if content.isEmpty then none
    else
      match r.drop content.length with
      | ')' :: _ => some ('(' :: process content ++ [')'], content.length + 2)
      | _ => none
  | _ => none

/-- `_isEnglishVoice` of `lib/onlineTTS.js` lines 113-116: the regex test
`/^[a-zA-Z\s]+$/.test(voiceName)`. -/
def isEnglishVoice (name : String) : Bool :=
  !name.data.isEmpty && name.data.all (fun c => isAsciiLetter c || isJsSpace c)

/-- `_convertNumbersToEnglish(text, voiceName)` of `lib/onlineTTS.js`
lines 125-249: returns the text unchanged when it is empty, when the voice
name is empty, or when the voice name fails `_isEnglishVoice`; otherwise
replaces `+` by ` plus `, normalizes `AoE`, processes parenthesized
segments, and runs the nine numeral rules. -/
def convertNumbersToEnglish (text voiceName : String) : String :=
  if text = "" then text
  else if voiceName = "" || !isEnglishVoice voiceName then text
  else
    String.mk (processNumberFormats
      (applyMatcher (parensMatcher processNumberFormats)
        (applyMatcher aoeMatcher (replacePlus text.data))))

example : convertNumbersToEnglish "deal 23 damage" "Alice" = "deal twenty three damage" := by
  decide
example : convertNumbersToEnglish "3rd" "Alice" = "third" := by decide
example : convertNumbersToEnglish "Waves (Left) 3rd fast" "Alice" =
    "Waves (Left) third fast" := by decide
example : convertNumbersToEnglish "+50%" "Alice" = " plus fifty percent" := by decide
example : convertNumbersToEnglish "x50" "Alice" = "times fifty" := by decide
example : convertNumbersToEnglish "1-2-3" "Alice" = "one dash two dash three" := by decide
example : convertNumbersToEnglish "3x3" "Alice" = "three times three" := by decide
example : convertNumbersToEnglish "2x Sword" "Alice" = "two times Sword" := by decide
example : convertNumbersToEnglish "2xSword" "Alice" = "two times Sword" := by decide
example : convertNumbersToEnglish "AoE +30%" "Alice" = "AOE  plus thirty percent" := by decide
example : convertNumbersToEnglish "deal 23 damage" "Воин" = "deal 23 damage" := by decide

/-! ## Cache file names and paths

`_textToFileName`, `_getActualCachePath`, `_getCacheFilePath` of
`lib/onlineTTS.js` lines 46-105.  `path.join` is modelled with the
separator `"/"`. -/

/-- A character of the removed-punctuation class
`[.,!?;:，。！？；：、""''()（）【】[\]]` (step one of `_textToFileName`). -/
def removedPunct (c : Char) : Bool :=
  c = '.' || c = ',' || c = '!' || c = '?' || c = ';' || c = ':' ||
  c = '，' || c = '。' || c = '！' || c = '？' || c = '；' || c = '：' || c = '、' ||
  c = '“' || c = '”' || c = '‘' || c = '’' ||
  c = '(' || c = ')' || c = '（' || c = '）' || c = '【' || c = '】' || c = '[' || c = ']'

/-- A character of the class `[\\/:*?"<>|]`, mapped to `_` (step two). -/
def pathSpecial (c : Char) : Bool :=
  c = '\\' || c = '/' || c = ':' || c = '*' || c = '?' || c = '"' || c = '<' || c = '>' || c = '|'

/-- Replace every maximal run of characters satisfying `p` by one `rep`
(the replaces `/\s+/g → _` and `/_+/g → _`). -/
def collapseRunsGo (p : Char → Bool) (rep : Char) : List Char → Bool → List Char
  | [], _ => []
  | c :: r, inRun =>
    if p c then
      if inRun then collapseRunsGo p rep r true
      else rep :: collapseRunsGo p rep r true
    else c :: collapseRunsGo p rep r false

def collapseRuns (p : Char → Bool) (rep : Char) (l : List Char) : List Char :=
  collapseRunsGo p rep l false

/-- `String.prototype.trim` on the modelled whitespace class. -/
def trimChars (l : List Char) : List Char :=
  ((l.dropWhile isJsSpace).reverse.dropWhile isJsSpace).reverse

/-- `/^_|_$/g`: remove one leading and one trailing underscore. -/
def stripEdgeUnderscore (l : List Char) : List Char :=
  let l1 := match l with
    | '_' :: r => r
    | _ => l
  match l1.getLast? with
  | some '_' => l1.dropLast
  | _ => l1

/-- `_textToFileName(text, maxLength = 100)` of `lib/onlineTTS.js`
lines 84-94. -/
def textToFileName (text : String) (maxLength : Nat := 100) : String :=
  let l := trimChars text.data
  let l := l.filter (fun c => !removedPunct c)
  let l := l.map (fun c => if pathSpecial c then '_' else c)
  let l := collapseRuns isJsSpace '_' l
  let l := collapseRuns (fun c => c = '_') '_' l
  let l := stripEdgeUnderscore l
  if l.length > maxLength then String.mk (l.take maxLength)
  else if l.isEmpty then "tts_audio" else String.mk l

example : textToFileName "hello" = "hello" := by decide
example : textToFileName "  Attack  +30%!  " = "Attack_+30%" := by decide
example : textToFileName "" = "tts_audio" := by decide
example : textToFileName "a/b: c" = "a_b_c" := by decide

/-- The `OnlineTTS` settings object (`this.settings`): the default config of
the constructor merged with the user fields.  `rootDir` stands for the
per-installation `path.join(__dirname, '..')`.  A voices map entry whose id
is the empty string models a falsy (missing/empty) id. -/
structure Settings where
  enabled : Bool
  apiKey : String
  apiEndpoint : String
  voices : List (String × String)
  defaultVoice : String
  sampleRate : Nat
  volume : Nat
  rate : Rat
  cacheDir : String
  rootDir : String
deriving DecidableEq, Repr

/-- `path.join` on two segments, with `/` as the separator. -/
def pathJoin (a b : String) : String := a ++ "/" ++ b

/-- `_getActualCachePath` of `lib/onlineTTS.js` lines 62-64. -/
def getActualCachePath (s : Settings) : String := pathJoin s.rootDir s.cacheDir

/-- `_getCacheFilePath(text, voiceName)` of `lib/onlineTTS.js` lines 103-105:
`path.join(cachePath, voiceName, fileName + ".mp3")`. -/
def getCacheFilePath (s : Settings) (text voiceName : String) : String :=
  pathJoin (pathJoin (getActualCachePath s) voiceName) (textToFileName text ++ ".mp3")

/-! ## Filesystem model

The cache directory contents as an association list from absolute paths to
byte lists.  `fs.existsSync` on a cache file is `fsContains`;
`fs.writeFileSync` is `fsWrite` (silent overwrite). -/

abbrev FS := List (String × List Nat)

def fsContains (fs : FS) (p : String) : Bool := (fs.find? (fun e => e.1 = p)).isSome

def fsWrite (fs : FS) (p : String) (b : List Nat) : FS :=
  (p, b) :: fs.filter (fun e => e.1 ≠ p)

/-- Property access `voices[name]` with `undefined` modelled as `""`. -/
def voiceLookup (voices : List (String × String)) (name : String) : String :=
  match voices.find? (fun p => p.1 = name) with
  | some p => p.2
  | none => ""

/-- `_getVoiceId` of `lib/onlineTTS.js` lines 269-274:
`voices[voiceName] || voices[defaultVoice]`, `null` when falsy. -/
def getVoiceId (s : Settings) (voiceName : String) : Option String :=
  if voiceName = "" || s.voices.isEmpty then none
  else
    let v := voiceLookup s.voices voiceName
    let v2 := if v = "" then voiceLookup s.voices s.defaultVoice else v
    if v2 = "" then none else some v2

/-! ## The synthesis client -/

instance {ε α : Type} [DecidableEq ε] [DecidableEq α] : DecidableEq (Except ε α) := fun x y =>
  match x, y with
  | .error a, .error b =>
    if h : a = b then .isTrue (by rw [h]) else .isFalse (by simp [h])
  | .ok a, .ok b =>
    if h : a = b then .isTrue (by rw [h]) else .isFalse (by simp [h])
  | .error _, .ok _ => .isFalse (by simp)
  | .ok _, .error _ => .isFalse (by simp)

/-- The remote response: HTTP status plus the concatenated body bytes. -/
structure APIResponse where
  statusCode : Nat
  body : List Nat
deriving DecidableEq, Repr

/-- Result of `_fetchAudioFromAPI`: how many network requests were issued,
how many cache files written, and the promise outcome (the new filesystem
and the resolved path, or the rejection message). -/
structure FetchOutcome where
  network : Nat
  writes : Nat
  result : Except String (FS × String)
deriving DecidableEq, Repr

/-- `_fetchAudioFromAPI(text, voiceName)` of `lib/onlineTTS.js`
lines 300-354, given the response the provider would send: the text /
api-key / voice-id preconditions reject before any request; a non-200
status rejects after the request without touching the filesystem; any 200
response has its body written to the cache file unconditionally. -/
def fetchAudioFromAPI (s : Settings) (fs : FS) (text voiceName : String)
    (resp : APIResponse) : FetchOutcome :=
  if text = "" then ⟨0, 0, .error "Invalid text parameter"⟩
  else if s.apiKey = "" then ⟨0, 0, .error "API key not set"⟩
  else
    match getVoiceId s voiceName with
    | none => ⟨0, 0, .error "Invalid voice ID"⟩
    | some _ =>
      if resp.statusCode ≠ 200 then
        ⟨1, 0, .error ("API request failed, status code: " ++ toString resp.statusCode)⟩
      else
        ⟨1, 1, .ok (fsWrite fs (getCacheFilePath s text voiceName) resp.body,
          getCacheFilePath s text voiceName)⟩

/-- `_validateAndPrepare(text, voiceName)` of `lib/onlineTTS.js`
lines 535-553: checks availability and configured voices, falls back to the
first configured voice when both the argument and the default are empty,
and returns the processed text, cache path and voice name. -/
def validateAndPrepare (s : Settings) (text voiceName0 : String) :
    Except String (String × String × String) :=
  if s.enabled = false ∨ s.apiKey = "" then
    .error (if s.enabled = false then "Online TTS not enabled" else "API key not set")
  else if s.voices.isEmpty then .error "No voices set, please add a voice first"
  else
    let voiceName := if voiceName0 = "" ∧ s.defaultVoice = "" then
      (s.voices.headD ("", "")).1 else voiceName0
    let processed := convertNumbersToEnglish text voiceName
    .ok (processed, getCacheFilePath s processed voiceName, voiceName)

/-- Result of `generateAudio`: resolved path, filesystem after the call, and
the number of network requests and cache-file writes performed. -/
structure GenOutcome where
  filePath : String
  fs : FS
  network : Nat
  writes : Nat
deriving DecidableEq, Repr

/-- `generateAudio(text, voiceName)` of `lib/onlineTTS.js` lines 385-397:
validate, then return the cache path directly if the file exists, otherwise
fetch (which writes the file) and return the path. -/
def generateAudio (s : Settings) (fs : FS) (text voiceName : String)
    (resp : APIResponse) : Except String GenOutcome :=
  match validateAndPrepare s text voiceName with
  | .error e => .error e
  | .ok (processed, filePath, voice) =>
    if fsContains fs filePath then .ok ⟨filePath, fs, 0, 0⟩
    else
      let f := fetchAudioFromAPI s fs processed voice resp
      match f.result with
      | .error e => .error e
      | .ok (fs2, _) => .ok ⟨filePath, fs2, f.network, f.writes⟩

/-! ## Voice configuration commands -/

/-- `this.settings.voices[name] = id`: update in place if the key exists,
append otherwise. -/
def voicesInsert (voices : List (String × String)) (name id : String) :
    List (String × String) :=
  if (voices.find? (fun p => p.1 = name)).isSome then
    voices.map (fun p => if p.1 = name then (name, id) else p)
  else voices ++ [(name, id)]

/-- `setVoice(name, id)` of `lib/onlineTTS.js` lines 435-443: store the
voice, and make it the default when it is the single key of the map. -/
def setVoice (s : Settings) (name id : String) : Settings :=
  let v2 := voicesInsert s.voices name id
  if v2.length = 1 then { s with voices := v2, defaultVoice := name }
  else { s with voices := v2 }

/-- Whether `p` is a file directly inside the directory `dir` (what
`fs.readdirSync(dir)` would list, for a flat directory of files). -/
def isDirectChild (dir p : String) : Bool :=
  listStartsWith p.data (dir ++ "/").data &&
    !(p.data.drop (dir ++ "/").data.length).isEmpty &&
    (p.data.drop (dir ++ "/").data.length).all (fun c => c ≠ '/')

/-- `deleteVoice(name)` of `lib/onlineTTS.js` lines 450-468.  Returns
`false` (configuration and filesystem untouched) when the map entry for
`name` is falsy or `name` is the default voice; otherwise removes the entry
and best-effort unlinks every file of the voice's cache directory, each
unlink failure being caught and ignored.  `failSet` is the set of paths
whose `unlinkSync` throws. -/
def deleteVoice (s : Settings) (fs : FS) (failSet : List String) (name : String) :
    Bool × Settings × FS :=
  if voiceLookup s.voices name = "" ∨ s.defaultVoice = name then (false, s, fs)
  else
    let s2 := { s with voices := s.voices.filter (fun p => p.1 ≠ name) }
    let dir := pathJoin (getActualCachePath s) name
    let fs2 := fs.filter (fun e => !(isDirectChild dir e.1 && !failSet.contains e.1))
    (true, s2, fs2)

/-! ## The persistent audio player

The `AudioPlayer` with a resident worker process (the `cscript` VBS player):
`queueAndPlay`/`_playQueue`/`play`, the `DONE` line handler, and the idle
timer (`_resetIdleTimer`/`_killProcess`).  Under the queue discipline
(`queueAndPlay` submissions, single-threaded event loop) the reachable
engine configurations are driven by three events:

* `enqueue j` — a `queueAndPlay(j)` call: pushes `j`; if no job is playing
  and no drain loop is running, sets the processing flag and the drain loop
  immediately shifts the queue head and submits it (`play`: start the
  worker if absent, clear the idle timer, write the encoded path);
* `complete` — the worker prints `DONE` for the in-flight job: the handler
  resolves it and arms the idle timer; the drain loop then either submits
  the next queued job (`play` clears the timer again) or, with an empty
  queue, clears the processing flag;
* `timerFire` — the armed idle timer elapses: `_killProcess` asks the
  worker to quit (`QUIT`) and releases the handle.

The state also records the histories needed to state the claims: every job
ever enqueued, every line submitted to the worker, every job completed. -/

/-- `5 * 60 * 1000` ms, the idle timeout of `_resetIdleTimer`. -/
def idleTimeoutMs : Nat := 5 * 60 * 1000

inductive PlayerEvent where
  | enqueue (job : String)
  | complete
  | timerFire
deriving DecidableEq, Repr

structure PlayerState where
  queue : List String
  inFlight : Option String
  processing : Bool
  workerPresent : Bool
  timerActive : Bool
  enqueued : List String
  submitted : List String
  completed : List String
deriving DecidableEq, Repr

/-- The engine before any call. -/
def initPlayer : PlayerState :=
  ⟨[], none, false, false, false, [], [], []⟩

/-- One iteration boundary of the `_playQueue` drain loop: submit the queue
head to the worker (`play`: lazy `_startProcess`, `clearTimeout`, stdin
write), or stop processing when the queue is empty. -/
def submitNext (s : PlayerState) : PlayerState :=
  match s.queue with
  | [] => { s with processing := false }
  | j :: rest =>
    { s with queue := rest, inFlight := some j, workerPresent := true,
             timerActive := false, submitted := s.submitted ++ [j] }

/-- The transition on one event. -/
def step (s : PlayerState) : PlayerEvent → PlayerState
  | .enqueue j =>
    let s1 := { s with queue := s.queue ++ [j], enqueued := s.enqueued ++ [j] }
    if s1.inFlight = none ∧ s1.processing = false then
      submitNext { s1 with processing := true }
    else s1
  | .complete =>
    match s.inFlight with
    | none => s
    | some j =>
      submitNext { s with inFlight := none, timerActive := true,
                          completed := s.completed ++ [j] }
  | .timerFire =>
    if s.timerActive then { s with workerPresent := false, timerActive := false }
    else s

def runFrom (s : PlayerState) : List PlayerEvent → PlayerState
  | [] => s
  | e :: evs => runFrom (step s e) evs

/-- The engine state after a sequence of events from start-up. -/
def runPlayer (evs : List PlayerEvent) : PlayerState := runFrom initPlayer evs

/-- The reachable-state invariant: submissions are the enqueued jobs minus
the still-queued tail; every submitted job except the in-flight one has
completed, in order; the idle timer is never armed while a job is in
flight; a worker is present, and the drain loop running, whenever a job is
in flight. -/
def PlayerInv (s : PlayerState) : Prop :=
  s.submitted ++ s.queue = s.enqueued ∧
  s.submitted = s.completed ++ s.inFlight.toList ∧
  (s.timerActive = true → s.inFlight = none) ∧
  (s.inFlight ≠ none → s.workerPresent = true) ∧
  (s.inFlight ≠ none → s.processing = true)

lemma playerInv_init : PlayerInv initPlayer := by
  refine ⟨rfl, rfl, fun _ => rfl, fun h => absurd rfl h, fun h => absurd rfl h⟩

lemma submitNext_inv (s : PlayerState)
    (h1 : s.submitted ++ s.queue = s.enqueued)
    (h2 : s.submitted = s.completed)
    (hif : s.inFlight = none)
    (hpr : s.processing = true) :
    PlayerInv (submitNext s) := by
  unfold PlayerInv submitNext
  cases hq : s.queue with
  | nil =>
    refine ⟨by simpa [hq] using h1, by simp [h2, hif], fun _ => hif,
      fun hc => absurd hif hc, fun hc => absurd hif hc⟩
  | cons j0 rest =>
    refine ⟨?_, ?_, ?_, fun _ => rfl, fun _ => hpr⟩
    · show (s.submitted ++ [j0]) ++ rest = s.enqueued
      rw [List.append_assoc, List.singleton_append, ← hq, h1]
    · show s.submitted ++ [j0] = s.completed ++ (some j0).toList
      rw [h2, Option.toList_some]
    · intro hta
      exact absurd hta.symm (by simp)

lemma playerInv_step (s : PlayerState) (e : PlayerEvent) (h : PlayerInv s) :
    PlayerInv (step s e) := by
  obtain ⟨h1, h2, h3, h4, h5⟩ := h
  cases e with
  | enqueue j =>
    simp only [step]
    split
    case isTrue hg =>
      refine submitNext_inv _ ?_ ?_ ?_ rfl
      · show s.submitted ++ (s.queue ++ [j]) = s.enqueued ++ [j]
        rw [← List.append_assoc, h1]
      · show s.submitted = s.completed
        have hif : s.inFlight = none := hg.1
        rw [h2, hif, Option.toList_none, List.append_nil]
      · exact hg.1
    case isFalse hg =>
      refine ⟨?_, h2, h3, h4, h5⟩
      show s.submitted ++ (s.queue ++ [j]) = s.enqueued ++ [j]
      rw [← List.append_assoc, h1]
  | complete =>
    simp only [step]
    cases hif : s.inFlight with
    | none => exact ⟨h1, h2, h3, h4, h5⟩
    | some j =>
      refine submitNext_inv _ h1 ?_ rfl ?_
      · show s.submitted = s.completed ++ [j]
        rw [h2, hif, Option.toList_some]
      · exact h5 (by simp [hif])
  | timerFire =>
    simp only [step]
    split
    case isTrue hta =>
      have hif := h3 hta
      exact ⟨h1, h2, fun _ => hif, fun hc => absurd hif hc, fun hc => h5 hc⟩
    case isFalse hta =>
      exact ⟨h1, h2, h3, h4, h5⟩

lemma playerInv_runFrom (s : PlayerState) (evs : List PlayerEvent) (h : PlayerInv s) :
    PlayerInv (runFrom s evs) := by
  induction evs generalizing s with
  | nil => exact h
  | cons e evs ih => exact ih (step s e) (playerInv_step s e h)

lemma playerInv_run (evs : List PlayerEvent) : PlayerInv (runPlayer evs) :=
  playerInv_runFrom initPlayer evs playerInv_init

/-! ## Concrete fixtures for the closed theorems -/

/-- A configuration with one English-named voice. -/
def cfgA : Settings :=
  { enabled := true, apiKey := "k", apiEndpoint := "https://api.espai.fun/ai_api/tts",
    voices := [("Alice", "id-alice")], defaultVoice := "Alice",
    sampleRate := 24000, volume := 90, rate := 1, cacheDir := "tts_cache", rootDir := "root" }

/-- A configuration with two voices, `Alice` being the default. -/
def cfgTwo : Settings :=
  { cfgA with voices := [("Alice", "id-alice"), ("Bob", "id-bob")], defaultVoice := "Alice" }

/-- A configuration in which voice `a` is stored with an empty (falsy) id. -/
def cfgEmptyId : Settings :=
  { cfgA with voices := [("a", ""), ("b", "x")], defaultVoice := "b" }

/-- A 200 response whose body is the ASCII text `error`, not audio. -/
def respBad : APIResponse := ⟨200, [101, 114, 114, 111, 114]⟩

/-- A 200 response whose body starts with the `ID3` magic bytes. -/
def respID3 : APIResponse := ⟨200, [73, 68, 51, 4]⟩

/-- Suffix test on the character lists (kernel-computable `endsWith`). -/
def strEndsWith (s t : String) : Bool := listStartsWith s.data.reverse t.data.reverse

/-! ## Claim C4 — cache path layout -/

/-- Counterexample to claim C4: the resolved cache file path has no language
directory level between the cache root and the voice directory, and its
extension is `.mp3`, not `.audio`. -/
theorem cachePath_layout_counterexample :
    getCacheFilePath cfgA "hello" "Alice" = "root/tts_cache/Alice/hello.mp3" ∧
    strEndsWith "root/tts_cache/Alice/hello.mp3" ".audio" = false ∧
    strEndsWith "root/tts_cache/Alice/hello.mp3" ".mp3" = true ∧
    getCacheFilePath cfgA "hello" "Alice" ≠ "root/tts_cache/en/Alice/hello.audio" ∧
    getCacheFilePath cfgA "hello" "Alice" ≠ "root/tts_cache/default/Alice/hello.audio" :=
  ⟨by decide, by decide, by decide, by decide, by decide⟩

/-- Claim C4 (amended): for every (text, voiceName) and configuration, the
resolved cache file path has the layout
`<rootDir>/<cacheDir>/<voiceName>/<sanitizedFileName>.mp3` — the voice
directory sits directly under the cache root, with no language level, and
the extension is `.mp3`. -/
theorem cachePath_layout (s : Settings) (text voiceName : String) :
    getCacheFilePath s text voiceName =
      s.rootDir ++ "/" ++ s.cacheDir ++ "/" ++ voiceName ++ "/" ++
        (textToFileName text ++ ".mp3") := by
  unfold getCacheFilePath getActualCachePath pathJoin
  apply String.ext
  simp [String.data_append, List.append_assoc]

/-! ## Claim C1 — no audio sniff check on 200 responses -/

/-- The audio sniff check as the spec words it (a specification-side
definition, absent from the source): the first three bytes are `ID3`, or
the first two bytes form a valid MPEG frame-sync pattern (eleven set
bits: `0xFF` then a byte whose top three bits are set). -/
def specAudioSniff (body : List Nat) : Bool :=
  match body with
  | b0 :: b1 :: b2 :: _ => (b0 == 73 && b1 == 68 && b2 == 51) || (b0 == 255 && b1 &&& 224 == 224)
  | [b0, b1] => b0 == 255 && b1 &&& 224 == 224
  | _ => false

/-- Counterexample to claim C1: a 200 response whose body is the ASCII text
`error` — failing the sniff check — is accepted by `_fetchAudioFromAPI` and
written to the cache file. -/
theorem fetch_sniff_counterexample :
    specAudioSniff respBad.body = false ∧
    (fetchAudioFromAPI cfgA [] "hi" "Alice" respBad).result =
      .ok ([("root/tts_cache/Alice/hi.mp3", respBad.body)], "root/tts_cache/Alice/hi.mp3") ∧
    (fetchAudioFromAPI cfgA [] "hi" "Alice" respBad).writes = 1 ∧
    fsContains [("root/tts_cache/Alice/hi.mp3", respBad.body)] "root/tts_cache/Alice/hi.mp3" = true :=
  ⟨by decide, by decide, by decide, by decide⟩

/-- Claim C1 (amended): once the pre-network checks pass (non-empty text,
an api key, a resolvable voice id), `_fetchAudioFromAPI` writes the body of
every 200 response to the cache unconditionally — it performs no audio
sniff check — and rejects every non-200 response without writing. -/
theorem fetch_caches_any_200_body (s : Settings) (fs : FS) (text voiceName : String)
    (resp : APIResponse) (ht : text ≠ "") (hk : s.apiKey ≠ "")
    (hv : (getVoiceId s voiceName).isSome = true) :
    (resp.statusCode = 200 →
      fetchAudioFromAPI s fs text voiceName resp =
        ⟨1, 1, .ok (fsWrite fs (getCacheFilePath s text voiceName) resp.body,
          getCacheFilePath s text voiceName)⟩) ∧
    (resp.statusCode ≠ 200 →
      fetchAudioFromAPI s fs text voiceName resp =
        ⟨1, 0, .error ("API request failed, status code: " ++ toString resp.statusCode)⟩) := by
  unfold fetchAudioFromAPI
  rw [if_neg ht, if_neg hk]
  obtain ⟨vid, hvid⟩ := Option.isSome_iff_exists.mp hv
  rw [hvid]
  constructor
  · intro h200
    rw [if_neg (by simp [h200])]
  · intro hno
    rw [if_pos hno]

theorem fetch_caches_any_200_body_witness :
    fetchAudioFromAPI cfgA [] "hi" "Alice" respID3 =
      ⟨1, 1, .ok (fsWrite [] (getCacheFilePath cfgA "hi" "Alice") respID3.body,
        getCacheFilePath cfgA "hi" "Alice")⟩ :=
  (fetch_caches_any_200_body cfgA [] "hi" "Alice" respID3
    (by decide) (by decide) (by decide)).1 rfl

/-! ## Claim C5 — what gates the numeral expansion -/

/-- Counterexample to claim C5: (a) with the non-ASCII voice name `Воин` the
input passes through with its underscore intact — there is no universal
symbol pass; (b) with the voice name `Kamisato`, which does not start with
`en`, numeral expansion is applied anyway — the gate is the voice-name
character test, not an English-locale test. -/
theorem normalization_gate_counterexample :
    convertNumbersToEnglish "go_to 3" "Воин" = "go_to 3" ∧
    isEnglishVoice "Воин" = false ∧
    convertNumbersToEnglish "wait 3" "Kamisato" = "wait three" ∧
    listStartsWith "Kamisato".data "en".data = false :=
  ⟨by decide, by decide, by decide, by decide⟩

/-- Claim C5 (amended): numeral/symbol expansion is gated on the voice name
matching `/^[a-zA-Z\s]+$/` (non-empty, only ASCII letters and whitespace).
When the voice name fails that test (or is empty), the input text is
returned completely unchanged — no symbol pass of any kind is applied. -/
theorem normalization_gate (text voiceName : String)
    (h : voiceName.data = [] ∨
      ¬ (∀ c ∈ voiceName.data, (isAsciiLetter c || isJsSpace c) = true)) :
    convertNumbersToEnglish text voiceName = text := by
  rw [convertNumbersToEnglish]
  by_cases htext : text = ""
  · rw [if_pos htext]
  · rw [if_neg htext, if_pos ?_]
    rcases h with hnil | hall
    · have hv : voiceName = "" := String.ext hnil
      simp [hv]
    · have hallf : voiceName.data.all (fun c => isAsciiLetter c || isJsSpace c) = false := by
        rw [Bool.eq_false_iff, Ne, List.all_eq_true]
        exact hall
      simp [isEnglishVoice, hallf]

theorem normalization_gate_witness :
    convertNumbersToEnglish "a_b" "Воин" = "a_b" :=
  normalization_gate "a_b" "Воин" (Or.inr (by decide))

/-! ## Claim C8 — deleteVoice failure and success conditions -/

/-- Counterexample to claim C8: voice `a` is present in the configured map
and is not the default voice, yet `deleteVoice "a"` returns false and
leaves the map unchanged — its stored id is the empty string, which is
falsy, and the source rejects on `!this.settings.voices[name]`. -/
theorem deleteVoice_counterexample :
    (cfgEmptyId.voices.find? (fun p => p.1 = "a")).isSome = true ∧
    cfgEmptyId.defaultVoice ≠ "a" ∧
    (deleteVoice cfgEmptyId [] [] "a").1 = false ∧
    (deleteVoice cfgEmptyId [] [] "a").2.1 = cfgEmptyId :=
  ⟨by decide, by decide, by decide, by decide⟩

/-- Claim C8 (amended): `deleteVoice(name)` fails — returning false with the
configuration untouched — exactly when the stored id of `name` is falsy
(absent or the empty string) or `name` is the configured default voice;
when `name` has a non-empty id and is not the default, it succeeds: it
returns true, removes every entry keyed `name` from the voice map, and
leaves the default voice unchanged. -/
theorem deleteVoice_behavior (s : Settings) (fs : FS) (failSet : List String) (name : String) :
    (voiceLookup s.voices name = "" ∨ s.defaultVoice = name →
      deleteVoice s fs failSet name = (false, s, fs)) ∧
    (voiceLookup s.voices name ≠ "" → s.defaultVoice ≠ name →
      (deleteVoice s fs failSet name).1 = true ∧
      (deleteVoice s fs failSet name).2.1.voices = s.voices.filter (fun p => p.1 ≠ name) ∧
      (∀ p ∈ (deleteVoice s fs failSet name).2.1.voices, p.1 ≠ name) ∧
      (deleteVoice s fs failSet name).2.1.defaultVoice = s.defaultVoice) := by
  unfold deleteVoice
  constructor
  · intro h
    rw [if_pos h]
  · intro h1 h2
    rw [if_neg (by tauto)]
    refine ⟨rfl, rfl, ?_, rfl⟩
    intro p hp
    have hmem := List.mem_filter.mp hp
    simpa using hmem.2

theorem deleteVoice_behavior_witness :
    (deleteVoice cfgTwo [] [] "Bob").1 = true ∧
    (deleteVoice cfgTwo [] [] "Bob").2.1.voices = [("Alice", "id-alice")] ∧
    deleteVoice cfgTwo [] [] "Alice" = (false, cfgTwo, []) := by
  have h := (deleteVoice_behavior cfgTwo [] [] "Bob").2 (by decide) (by decide)
  have h2 := (deleteVoice_behavior cfgTwo [] [] "Alice").1 (Or.inr (by decide))
  exact ⟨h.1, h.2.1.trans (by decide), h2⟩

/-! ## Claim C9 — the first stored voice becomes the default -/

/-- Claim C9: after `setVoice(name, id)`, if `name` is the only key of the
configured voice map then the default voice is `name` (the first voice
added becomes the default); if a differently-named voice already exists,
the default voice is unchanged. -/
theorem setVoice_first_default (s : Settings) (name id : String)
    (hnodup : (s.voices.map Prod.fst).Nodup) :
    ((∀ p ∈ s.voices, p.1 = name) → (setVoice s name id).defaultVoice = name) ∧
    ((∃ p ∈ s.voices, p.1 ≠ name) → (setVoice s name id).defaultVoice = s.defaultVoice) := by
  constructor
  · intro hall
    rcases hsv : s.voices with _ | ⟨p, rest⟩
    · simp [setVoice, voicesInsert, hsv]
    · rcases rest with _ | ⟨q, rest2⟩
      · have hp : p.1 = name := hall p (by rw [hsv]; exact List.mem_singleton_self p)
        simp [setVoice, voicesInsert, hsv, List.find?_cons, hp]
      · exfalso
        rw [hsv] at hall hnodup
        have hp : p.1 = name := hall p (by simp)
        have hq : q.1 = name := hall q (by simp)
        simp only [List.map_cons, List.nodup_cons, List.mem_cons, List.mem_map] at hnodup
        exact hnodup.1 (Or.inl (hp.trans hq.symm))
  · rintro ⟨p, hp, hne⟩
    unfold setVoice voicesInsert
    by_cases hfind : (s.voices.find? (fun q => q.1 = name)).isSome
    · have hlen : ¬ (s.voices.map (fun p => if p.1 = name then (name, id) else p)).length = 1 := by
        rw [List.length_map]
        intro h1
        obtain ⟨q, hq⟩ := List.length_eq_one.mp h1
        obtain ⟨r, hfr⟩ := Option.isSome_iff_exists.mp hfind
        have hrmem := List.mem_of_find?_eq_some hfr
        have hrpred : r.1 = name := by simpa using List.find?_some hfr
        rw [hq, List.mem_singleton] at hp hrmem
        exact hne (hp ▸ hrmem ▸ hrpred)
      rw [if_pos hfind, if_neg hlen]
    · have hlen : ¬ (s.voices ++ [(name, id)]).length = 1 := by
        rw [List.length_append]
        have hvne : s.voices ≠ [] := by
          intro hc
          rw [hc] at hp
          cases hp
        have := List.length_pos.mpr hvne
        simp only [List.length_singleton]
        omega
      rw [if_neg hfind, if_neg hlen]

theorem setVoice_first_default_witness :
    (setVoice { cfgA with voices := [], defaultVoice := "" } "Niko" "id-1").defaultVoice
      = "Niko" ∧
    (setVoice cfgTwo "Niko" "id-1").defaultVoice = "Alice" := by
  constructor
  · exact (setVoice_first_default { cfgA with voices := [], defaultVoice := "" }
      "Niko" "id-1" (by decide)).1 (by intro p hp; cases hp)
  · exact (setVoice_first_default cfgTwo "Niko" "id-1" (by decide)).2
      ⟨("Alice", "id-alice"), by decide, by decide⟩

/-! ## Claim C10 — a successful deleteVoice clears the voice's cache files -/

/-- Claim C10: a successful `deleteVoice(name)` also deletes from disk every
file directly inside the voice's cache directory `<cacheRoot>/<name>`
(every file whose unlink does not fail), while files outside that directory
are kept; and unlink failures change neither the returned success nor the
resulting voice configuration. -/
theorem deleteVoice_clears_cache (s : Settings) (fs : FS) (failSet : List String)
    (name : String)
    (hid : voiceLookup s.voices name ≠ "") (hdef : s.defaultVoice ≠ name) :
    (deleteVoice s fs failSet name).1 = true ∧
    (∀ e ∈ (deleteVoice s fs [] name).2.2,
      isDirectChild (pathJoin (getActualCachePath s) name) e.1 = false) ∧
    (deleteVoice s fs failSet name).1 = (deleteVoice s fs [] name).1 ∧
    (deleteVoice s fs failSet name).2.1 = (deleteVoice s fs [] name).2.1 ∧
    (∀ e ∈ fs, isDirectChild (pathJoin (getActualCachePath s) name) e.1 = false →
      e ∈ (deleteVoice s fs failSet name).2.2) := by
  unfold deleteVoice
  have hcond : ¬ (voiceLookup s.voices name = "" ∨ s.defaultVoice = name) := by tauto
  rw [if_neg hcond, if_neg hcond]
  refine ⟨rfl, ?_, rfl, rfl, ?_⟩
  · intro e he
    have hmem := (List.mem_filter.mp he).2
    simpa using hmem
  · intro e he hnc
    apply List.mem_filter.mpr
    refine ⟨he, ?_⟩
    simp [hnc]

/-- Cache files of two voices, used by the C10 witness. -/
def fsB : FS :=
  [("root/tts_cache/Bob/x.mp3", [1]), ("root/tts_cache/Alice/y.mp3", [2])]

theorem deleteVoice_clears_cache_witness :
    (deleteVoice cfgTwo fsB [] "Bob").1 = true ∧
    (deleteVoice cfgTwo fsB [] "Bob").2.2 = [("root/tts_cache/Alice/y.mp3", [2])] := by
  have h := deleteVoice_clears_cache cfgTwo fsB [] "Bob" (by decide) (by decide)
  exact ⟨h.1, by decide⟩

/-! ## Claim C2 — one fetch on a cold cache, then a pure cache hit -/

lemma validateAndPrepare_ok (s : Settings) (text voiceName0 processed filePath voice : String)
    (h : validateAndPrepare s text voiceName0 = .ok (processed, filePath, voice)) :
    filePath = getCacheFilePath s processed voice := by
  unfold validateAndPrepare at h
  split at h
  · exact absurd h (by simp)
  · split at h
    · exact absurd h (by simp)
    · simp only [Except.ok.injEq, Prod.mk.injEq] at h
      obtain ⟨hp, hfp, hvn⟩ := h
      rw [← hfp, hp, hvn]

lemma fetchAudioFromAPI_ok (s : Settings) (fs : FS) (text voiceName : String)
    (resp : APIResponse) (fs2 : FS) (pth : String)
    (h : (fetchAudioFromAPI s fs text voiceName resp).result = .ok (fs2, pth)) :
    fetchAudioFromAPI s fs text voiceName resp =
      ⟨1, 1, .ok (fsWrite fs (getCacheFilePath s text voiceName) resp.body,
        getCacheFilePath s text voiceName)⟩ ∧
    fs2 = fsWrite fs (getCacheFilePath s text voiceName) resp.body := by
  unfold fetchAudioFromAPI at h ⊢
  by_cases h1 : text = ""
  · rw [if_pos h1] at h
    exact absurd h (by simp)
  rw [if_neg h1] at h ⊢
  by_cases h2 : s.apiKey = ""
  · rw [if_pos h2] at h
    exact absurd h (by simp)
  rw [if_neg h2] at h ⊢
  revert h
  cases hv : getVoiceId s voiceName with
  | none =>
    intro h
    simp at h
  | some vid =>
    intro h
    dsimp only at h ⊢
    by_cases h3 : resp.statusCode ≠ 200
    · rw [if_pos h3] at h
      exact absurd h (by simp)
    · rw [if_neg h3] at h ⊢
      simp only [Except.ok.injEq, Prod.mk.injEq] at h
      exact ⟨rfl, h.1.symm⟩

/-- Claim C2: starting from an empty cache, a successful `generateAudio`
call performs exactly one network request and one cache-file write; a
second call with identical text and voice then performs zero network
requests and zero writes (whatever the provider would now answer), leaves
the cache unchanged, and resolves to the same cached file path.  The cache
hit is decided solely by the existence of the cache file. -/
theorem generateAudio_single_fetch_then_cache_hit (s : Settings)
    (text voiceName : String) (resp resp2 : APIResponse) (out : GenOutcome)
    (h : generateAudio s [] text voiceName resp = .ok out) :
    out.network = 1 ∧ out.writes = 1 ∧
    generateAudio s out.fs text voiceName resp2 = .ok ⟨out.filePath, out.fs, 0, 0⟩ := by
  unfold generateAudio at h ⊢
  revert h
  cases hv : validateAndPrepare s text voiceName with
  | error e =>
    intro h
    simp at h
  | ok tup =>
    obtain ⟨processed, filePath, voice⟩ := tup
    intro h
    dsimp only at h ⊢
    have hpath := validateAndPrepare_ok s text voiceName processed filePath voice hv
    have hcf : ¬ (fsContains ([] : FS) filePath = true) := by simp [fsContains]
    rw [if_neg hcf] at h
    revert h
    cases hres : (fetchAudioFromAPI s [] processed voice resp).result with
    | error e =>
      intro h
      simp at h
    | ok pr =>
      obtain ⟨fs2, pth⟩ := pr
      intro h
      obtain ⟨hfeq, hfs2⟩ := fetchAudioFromAPI_ok s [] processed voice resp fs2 pth hres
      dsimp only at h
      rw [hfeq] at h
      simp only [Except.ok.injEq] at h
      obtain ⟨hfp, hfs, hn, hw⟩ :
          out.filePath = filePath ∧ out.fs = fs2 ∧ out.network = 1 ∧ out.writes = 1 := by
        rw [← h]
        exact ⟨rfl, rfl, rfl, rfl⟩
      refine ⟨hn, hw, ?_⟩
      have hcontains : fsContains fs2 filePath = true := by
        rw [hfs2, hpath]
        simp [fsContains, fsWrite, List.find?_cons_of_pos]
      rw [hfs, hfp, if_pos hcontains]

/-- The outcome of the C2 witness: one fetch writing the `ID3` body. -/
def outA : GenOutcome :=
  ⟨"root/tts_cache/Alice/hi.mp3", [("root/tts_cache/Alice/hi.mp3", [73, 68, 51, 4])], 1, 1⟩

theorem generateAudio_single_fetch_then_cache_hit_witness :
    outA.network = 1 ∧ outA.writes = 1 ∧
    generateAudio cfgA outA.fs "hi" "Alice" ⟨500, []⟩ = .ok ⟨outA.filePath, outA.fs, 0, 0⟩ :=
  generateAudio_single_fetch_then_cache_hit cfgA "hi" "Alice" respID3 ⟨500, []⟩ outA
    (by decide)

/-! ## Claim C6 — FIFO submission, one job at a time -/

/-- Claim C6: over every event sequence of the playback engine, the jobs
submitted to the worker are exactly the enqueued jobs minus the still-queued
tail (strict enqueue order), and the submitted jobs are the completed ones
followed by at most the single in-flight job — each job is awaited to
completion before the next is submitted, so no two busy intervals overlap.
In particular, for two requests enqueued before the first completes, the
second is submitted only when the first completes. -/
theorem playback_fifo_no_overlap (evs : List PlayerEvent) (a b : String) :
    ((runPlayer evs).submitted ++ (runPlayer evs).queue = (runPlayer evs).enqueued ∧
     (runPlayer evs).submitted =
       (runPlayer evs).completed ++ (runPlayer evs).inFlight.toList) ∧
    ((runPlayer [PlayerEvent.enqueue a, PlayerEvent.enqueue b]).submitted = [a] ∧
     (runPlayer [PlayerEvent.enqueue a, PlayerEvent.enqueue b,
        PlayerEvent.complete]).submitted = [a, b] ∧
     (runPlayer [PlayerEvent.enqueue a, PlayerEvent.enqueue b, PlayerEvent.complete,
        PlayerEvent.complete]).completed = [a, b]) := by
  constructor
  · obtain ⟨h1, h2, _, _, _⟩ := playerInv_run evs
    exact ⟨h1, h2⟩
  · refine ⟨rfl, rfl, rfl⟩

/-! ## Claim C7 — idle-timer policy -/

/-- Claim C7: the idle timer (five minutes) is armed only at job completion
and cleared by every submission, so it is never armed — and hence can never
terminate the worker — while a job is in flight; when it fires it releases
the worker; and an enqueue on the idle engine after such a shutdown starts
a fresh worker, puts the job in flight, and the following completion
completes exactly that job. -/
theorem idle_timer_policy (evs : List PlayerEvent) (j : String) :
    idleTimeoutMs = 300000 ∧
    ((runPlayer evs).timerActive = true → (runPlayer evs).inFlight = none) ∧
    ((runPlayer evs).timerActive = true →
      (step (runPlayer evs) PlayerEvent.timerFire).workerPresent = false ∧
      (step (runPlayer evs) PlayerEvent.timerFire).timerActive = false) ∧
    ((runPlayer evs).inFlight = none → (runPlayer evs).processing = false →
      (runPlayer evs).queue = [] →
      (step (step (runPlayer evs) PlayerEvent.timerFire)
        (PlayerEvent.enqueue j)).workerPresent = true ∧
      (step (step (runPlayer evs) PlayerEvent.timerFire)
        (PlayerEvent.enqueue j)).inFlight = some j ∧
      (step (step (step (runPlayer evs) PlayerEvent.timerFire)
        (PlayerEvent.enqueue j)) PlayerEvent.complete).completed =
        (runPlayer evs).completed ++ [j]) := by
  refine ⟨rfl, ?_, ?_, ?_⟩
  · exact (playerInv_run evs).2.2.1
  · intro hta
    simp [step, hta]
  · intro hif hpr hq
    by_cases hta : (runPlayer evs).timerActive = true
    · simp [step, submitNext, hta, hif, hpr, hq]
    · simp [step, submitNext, hta, hif, hpr, hq]

theorem idle_timer_policy_witness :
    (runPlayer [PlayerEvent.enqueue "a", PlayerEvent.complete]).timerActive = true ∧
    (step (runPlayer [PlayerEvent.enqueue "a", PlayerEvent.complete])
      PlayerEvent.timerFire).workerPresent = false ∧
    (step (step (runPlayer [PlayerEvent.enqueue "a", PlayerEvent.complete])
      PlayerEvent.timerFire) (PlayerEvent.enqueue "b")).inFlight = some "b" ∧
    (step (step (step (runPlayer [PlayerEvent.enqueue "a", PlayerEvent.complete])
      PlayerEvent.timerFire) (PlayerEvent.enqueue "b")) PlayerEvent.complete).completed =
      ["a", "b"] := by
  have h := idle_timer_policy [PlayerEvent.enqueue "a", PlayerEvent.complete] "b"
  refine ⟨rfl, (h.2.2.1 rfl).1, (h.2.2.2 rfl rfl rfl).2.1, ?_⟩
  have h4 := (h.2.2.2 rfl rfl rfl).2.2
  rw [h4]
  rfl

end TGC
